import Mathlib

/-!
Verification development for the EmotiBit data visualizer
(`run_visualizer.py`).  Strings are modelled as `List Char`; Python's
string primitives (`str.lower`, `str.replace`, `str.strip`,
`str.split`) and the `datetime.strptime` formats used by the script are
embedded as executable Lean functions, and the script's core functions
(`parse_time`, `load_music_schedule`, `load_emotibit_data`,
`process_folder`, the annotation-placement loop of
`plot_and_save_signal`) are translated on top of them.
-/

set_option autoImplicit false

namespace EmotiBit

/-! ### Character classes (ASCII, as used by the script's inputs) -/

/-- Decimal digit test, `'0' ≤ c ≤ '9'` (codepoints 48–57). -/
def isDigitC (c : Char) : Bool := 48 ≤ c.toNat && c.toNat ≤ 57

/-- Whitespace stripped by Python `str.strip()` (the six ASCII
whitespace characters of `string.whitespace`). -/
def isWSC (c : Char) : Bool :=
  c.toNat = 32 || c.toNat = 9 || c.toNat = 10 || c.toNat = 13 ||
  c.toNat = 11 || c.toNat = 12

/-- ASCII lower-casing of one character, as `str.lower` acts on the
script's inputs. -/
def lowerChar (c : Char) : Char :=
  if 65 ≤ c.toNat ∧ c.toNat ≤ 90 then Char.ofNat (c.toNat + 32) else c

/-- Model of `str.lower` on a whole string. -/
def lowerStr (l : List Char) : List Char := l.map lowerChar

/-! ### Python string primitives -/

/-- Model of `str.replace(pat, '')` for a two-character pattern `[a, b]`:
deletes non-overlapping occurrences, scanning left to right.  Both
patterns used by the script (`'am'`, `'pm'`) have length two. -/
def removePat2 (a b : Char) : List Char → List Char
  | [] => []
  | [c] => [c]
  | c :: d :: rest =>
    if c = a ∧ d = b then removePat2 a b rest
    else c :: removePat2 a b (d :: rest)

/-- Drop leading whitespace. -/
def dropWS (l : List Char) : List Char := l.dropWhile isWSC

/-- Model of `str.strip()`: drop leading and trailing whitespace. -/
def stripStr (l : List Char) : List Char :=
  (dropWS ((dropWS l).reverse)).reverse

/-- Model of `str.split(sep)` for a one-character separator: always returns a
non-empty list of (possibly empty) fields. -/
def splitOnChar (sep : Char) : List Char → List (List Char)
  | [] => [[]]
  | c :: cs =>
    let r := splitOnChar sep cs
    if c = sep then [] :: r
    else
      match r with
      | [] => [[c]]
      | g :: gs => (c :: g) :: gs

/-- Numeric value of a digit string (most significant first). -/
def natOfDigits (l : List Char) : Nat :=
  l.foldl (fun n c => n * 10 + (c.toNat - 48)) 0

/-- Python substring test `pat in l` (prefix at some position). -/
def startsWithPat : List Char → List Char → Bool
  | [], _ => true
  | _ :: _, [] => false
  | p :: ps, c :: cs => p = c && startsWithPat ps cs

def hasSub (pat : List Char) : List Char → Bool
  | [] => pat.isEmpty
  | c :: cs => startsWithPat pat (c :: cs) || hasSub pat cs

/-- fnmatch of a `'*suffix'` glob pattern: the name ends with the
suffix. -/
def endsWithPat (l pat : List Char) : Bool :=
  startsWithPat pat.reverse l.reverse

/-! ### `strptime` time-of-day formats

`datetime.strptime(s, '%H:%M:%S')` (resp. `'%H:%M'`) matches the whole
string: each field is one or two digits, with `%H ≤ 23`, `%M ≤ 59`;
`%S` values 60–61 pass the regex but are rejected when the `datetime`
is constructed, so they too raise `ValueError`.  A colon-separated
field therefore parses exactly when it is 1–2 digits with value in
range. -/

def parseField (maxV : Nat) (f : List Char) : Option Nat :=
  if f ≠ [] ∧ f.length ≤ 2 ∧ f.all isDigitC ∧ natOfDigits f ≤ maxV then
    some (natOfDigits f)
  else none

/-- Parse the cleaned time string as `%H:%M:%S`, falling back to
`%H:%M` (seconds 0), as in `parse_time` (run_visualizer.py lines
132–137). -/
def parseClock (l : List Char) : Option (Nat × Nat × Nat) :=
  match splitOnChar ':' l with
  | [h, m, s] =>
    match parseField 23 h, parseField 59 m, parseField 59 s with
    | some hv, some mv, some sv => some (hv, mv, sv)
    | _, _, _ => none
  | [h, m] =>
    match parseField 23 h, parseField 59 m with
    | some hv, some mv => some (hv, mv, 0)
    | _, _ => none
  | _ => none

/-! ### `strptime` date formats and calendar validity -/

def isLeapYear (y : Nat) : Bool :=
  y % 4 = 0 && (y % 100 ≠ 0 || y % 400 = 0)

def daysInMonth (y m : Nat) : Nat :=
  if m = 2 then (if isLeapYear y then 29 else 28)
  else if m = 4 ∨ m = 6 ∨ m = 9 ∨ m = 11 then 30
  else 31

/-- Test that `datetime(y, m, d)` construction succeeds: year within
`[MINYEAR, MAXYEAR]`, day within the month's length (the regex already
guarantees `1 ≤ m ≤ 12` and `d ≥ 1`). -/
def mkDate (y m d : Nat) : Option (Nat × Nat × Nat) :=
  if 1 ≤ y ∧ y ≤ 9999 ∧ 1 ≤ d ∧ d ≤ daysInMonth y m then some (y, m, d)
  else none

/-- Two-digit `%m`/`%d` field: two digits whose value is in `[1, maxV]`
(the regex alternatives `1[0-2]|0[1-9]` resp. `3[01]|[12]\d|0[1-9]`
accept exactly those). -/
def fld2 (maxV : Nat) (a b : Char) : Option Nat :=
  if isDigitC a ∧ isDigitC b ∧ 1 ≤ natOfDigits [a, b] ∧ natOfDigits [a, b] ≤ maxV then
    some (natOfDigits [a, b])
  else none

/-- One-digit `%m`/`%d` field: regex alternative `[1-9]`. -/
def fld1 (a : Char) : Option Nat :=
  if isDigitC a ∧ 1 ≤ natOfDigits [a] then some (natOfDigits [a]) else none

def num4 (y1 y2 y3 y4 : Char) : Nat := natOfDigits [y1, y2, y3, y4]

/-- Model of `strptime(l ++ ' …', '%Y%m%d …')` restricted to the date part:
`%Y` consumes exactly four digits, then `%m` and `%d` (1–2 digits each,
longest alternatives first) must consume the rest of `l` exactly.  The
regex backtracks over field widths, but a calendar-validity failure in
the final `datetime` construction does not re-try other widths. -/
def parseDate8 (l : List Char) : Option (Nat × Nat × Nat) :=
  if ¬ l.all isDigitC then none
  else
    match l with
    | [y1, y2, y3, y4, a, b, c, d] =>
      match fld2 12 a b, fld2 31 c d with
      | some m, some dd => mkDate (num4 y1 y2 y3 y4) m dd
      | _, _ => none
    | [y1, y2, y3, y4, a, b, c] =>
      match fld2 12 a b, fld1 c with
      | some m, some dd => mkDate (num4 y1 y2 y3 y4) m dd
      | _, _ =>
        match fld1 a, fld2 31 b c with
        | some m, some dd => mkDate (num4 y1 y2 y3 y4) m dd
        | _, _ => none
    | [y1, y2, y3, y4, a, b] =>
      match fld1 a, fld1 b with
      | some m, some dd => mkDate (num4 y1 y2 y3 y4) m dd
      | _, _ => none
    | _ => none

/-- Model of `strptime(tok, '%Y-%m-%d')`: four-digit year, dash, 1–2 digit
month, dash, 1–2 digit day, nothing left over, then calendar
validity.  Used on the leading filename token in
`load_emotibit_data` (lines 65–66). -/
def parseISODate (tok : List Char) : Option (Nat × Nat × Nat) :=
  match splitOnChar '-' tok with
  | [ys, ms, ds] =>
    if ys.length = 4 ∧ ys.all isDigitC ∧
       ms ≠ [] ∧ ms.length ≤ 2 ∧ ms.all isDigitC ∧
       1 ≤ natOfDigits ms ∧ natOfDigits ms ≤ 12 ∧
       ds ≠ [] ∧ ds.length ≤ 2 ∧ ds.all isDigitC ∧
       1 ≤ natOfDigits ds ∧ natOfDigits ds ≤ 31 then
      mkDate (natOfDigits ys) (natOfDigits ms) (natOfDigits ds)
    else none
  | _ => none

/-! ### `parse_time` (run_visualizer.py lines 129–144) -/

/-- A timezone-qualified instant as produced by
`pd.Timestamp(dt_naive, tz='US/Eastern')`; the zone is the same fixed
one for every value, so only the civil fields are carried. -/
structure Timestamp where
  year : Nat
  month : Nat
  day : Nat
  hour : Nat
  minute : Nat
  second : Nat
deriving DecidableEq, Repr

/-- Line 131: lower-case, delete every `'am'` and `'pm'`, strip. -/
def cleanTime (l : List Char) : List Char :=
  stripStr (removePat2 'p' 'm' (removePat2 'a' 'm' (lowerStr l)))

/-- Lines 139–141: in a PM session, hours 1–11 gain 12. -/
def adjustHour (isPM : Bool) (h : Nat) : Nat :=
  if isPM ∧ 1 ≤ h ∧ h ≤ 11 then h + 12 else h

/-- Model of `parse_time(time_str, date_str, is_pm)`: `none` models the
`ValueError` that the caller catches.  The final
`strptime(f"{date_str} {hour:02d}:{minute:02d}:{second:02d}",
'%Y%m%d %H:%M:%S')` always accepts the time part (hour stays ≤ 23
after adjustment) and applies `parseDate8` to the date part. -/
def parse_time (timeStr dateStr : List Char) (isPM : Bool) : Option Timestamp :=
  match parseClock (cleanTime timeStr) with
  | none => none
  | some (h, m, s) =>
    match parseDate8 dateStr with
    | none => none
    | some (yy, mo, dd) => some ⟨yy, mo, dd, adjustHour isPM h, m, s⟩

/-! ### `load_music_schedule` (run_visualizer.py lines 97–196) -/

/-- One schedule row after `pd.read_csv(..., usecols=[0,1,2,3])`: each
cell is either a string or `NaN` (`none`, for a blank cell). -/
structure Row where
  time : Option (List Char)
  song : Option (List Char)
  score : Option (List Char)
  obs : Option (List Char)
deriving DecidableEq, Repr

/-- Value of `str(cell)` for the time cell, which has no `pd.notna` guard
(line 149): a `NaN` renders as the string `"nan"`. -/
def timeText (c : Option (List Char)) : List Char :=
  match c with
  | none => 'n' :: 'a' :: 'n' :: []
  | some s => s

/-- A row removed by `df_schedule.dropna(how='all')` (line 114). -/
def isBlankRow (r : Row) : Bool :=
  r.time.isNone && r.song.isNone && r.score.isNone && r.obs.isNone

/-- One entry of `all_events` (line 154). -/
structure Event where
  time : Timestamp
  song : List Char
  score : List Char
  obs : List Char
deriving DecidableEq, Repr

/-- The body of the row loop (lines 147–157): parse the stripped time
cell; on `ValueError` the row is skipped (`none`); otherwise the
text cells normalise blanks to `""` and are stripped. -/
def rowEvent (flag : Bool) (d : List Char) (r : Row) : Option Event :=
  match parse_time (stripStr (timeText r.time)) d flag with
  | none => none
  | some t =>
    some ⟨t, stripStr (r.song.getD []), stripStr (r.score.getD []),
          stripStr (r.obs.getD [])⟩

/-- The list `all_events` built from the rows kept by `dropna`. -/
def eventsOf (flag : Bool) (d : List Char) (rows : List Row) : List Event :=
  (rows.filter (fun r => !(isBlankRow r))).filterMap (rowEvent flag d)

/-- Test `'music end' in event['obs'].lower()` (line 170). -/
def hasMusicEnd (e : Event) : Bool :=
  hasSub ('m' :: 'u' :: 's' :: 'i' :: 'c' :: ' ' :: 'e' :: 'n' :: 'd' :: [])
    (lowerStr e.obs)

/-- The session-window loop (lines 163–173): the first event with a
non-empty song sets the start; the first event whose observation
contains "music end" sets the end and `break`s out of the loop. -/
def windowLoop (acc : Option Timestamp) :
    List Event → Option Timestamp × Option Timestamp
  | [] => (acc, none)
  | e :: rest =>
    let acc' := if acc.isNone ∧ e.song ≠ [] then some e.time else acc
    if hasMusicEnd e then (acc', some e.time)
    else windowLoop acc' rest

/-- Model of `"\n".join(parts)`. -/
def joinNL : List (List Char) → List Char
  | [] => []
  | [p] => p
  | p :: q :: ps => p ++ '\n' :: joinNL (q :: ps)

/-- The string `f"(Score: {score})"` (line 185). -/
def scoreWrap (s : List Char) : List Char :=
  ('(' :: 'S' :: 'c' :: 'o' :: 'r' :: 'e' :: ':' :: ' ' :: []) ++ s ++ (')' :: [])

/-- The annotation-text builder of lines 181–188: push song, score
wrapper and observation when non-empty, join with newlines. -/
def annText (e : Event) : List Char :=
  joinNL ((if e.song ≠ [] then [e.song] else []) ++
          (if e.score ≠ [] then [scoreWrap e.score] else []) ++
          (if e.obs ≠ [] then [e.obs] else []))

/-- One element of the `annotations` list (line 190). -/
structure SchedAnn where
  time : Timestamp
  text : List Char
deriving DecidableEq, Repr

/-- The dictionary returned at line 196 (`final_end_time` is always
set when any event exists, so it is carried as a plain field). -/
structure SchedData where
  annots : List SchedAnn
  musicStart : Option Timestamp
  musicEnd : Timestamp
deriving DecidableEq, Repr

/-- Test `'afternoon' in data_folder_path.lower()` (line 121). -/
def isAfternoonOf (p : List Char) : Bool :=
  hasSub ('a' :: 'f' :: 't' :: 'e' :: 'r' :: 'n' :: 'o' :: 'o' :: 'n' :: [])
    (lowerStr p)

/-- Model of `load_music_schedule(file_path, experiment_date_str,
data_folder_path)`.  `fileExists` is `os.path.exists(file_path)`
(line 103) and `rows` the parsed CSV contents; `none` models the
`return None` branches (file absent, empty table, no usable event). -/
def load_music_schedule (fileExists : Bool) (rows : List Row)
    (d : List Char) (folderPath : List Char) : Option SchedData :=
  if ¬ fileExists then none
  else if (rows.filter (fun r => !(isBlankRow r))).isEmpty then none
  else
    match (rows.filter (fun r => !(isBlankRow r))).filterMap
        (rowEvent (isAfternoonOf folderPath) d) with
    | [] => none
    | e0 :: rest =>
      some ⟨(e0 :: rest).map (fun e => ⟨e.time, annText e⟩),
            (windowLoop none (e0 :: rest)).1,
            ((windowLoop none (e0 :: rest)).2.getD
              ((e0 :: rest).getLastD e0).time)⟩

/-! ### `load_emotibit_data` (run_visualizer.py lines 47–95) -/

/-- A file of the session folder: its basename plus the pieces of its
contents that the loader inspects.  `readOk = false` models a
`pd.read_csv` failure (caught and skipped, lines 91–92). -/
structure FileRec where
  name : List Char
  columns : List (List Char) := []
  timeVals : List Int := []
  dataVals : List Int := []
  schedRows : List Row := []
  readOk : Bool := true
deriving DecidableEq, Repr

/-- A loaded two-column channel series `(est_time, value)`.  The epoch
timestamps are modelled as integers; the UTC→US/Eastern conversion
re-labels the same instant, so the instant itself is kept. -/
def Series : Type := List (Int × Int)
deriving instance DecidableEq, Repr for Series

def csvSuffix : List Char := '.' :: 'c' :: 's' :: 'v' :: []

def localTSCol : List Char :=
  'L' :: 'o' :: 'c' :: 'a' :: 'l' :: 'T' :: 'i' :: 'm' :: 'e' :: 's' ::
  't' :: 'a' :: 'm' :: 'p' :: []

/-- Value of `basename.split('_')[0]` (line 65). -/
def dateToken (name : List Char) : List Char :=
  (splitOnChar '_' name).headD []

/-- The date-scan loop (lines 62–71): first file, in list order, whose
leading token parses as `%Y-%m-%d`; the dashes are then removed
(line 67). -/
def findDateStr (fs : List FileRec) : Option (List Char) :=
  (fs.find? (fun f => (parseISODate (dateToken f.name)).isSome)).map
    (fun f => (dateToken f.name).filter (fun c => c ≠ '-'))

/-- Per-signal channel loading (lines 77–92): first file matching
`*_{sig}.csv`, must read, must have a `LocalTimestamp` column and at
least two columns; the last column becomes `value`. -/
def loadChannel (files : List FileRec) (sig : List Char) :
    Option (List Char × Series) :=
  match (files.filter
      (fun f => endsWithPat f.name ('_' :: sig ++ csvSuffix))).head? with
  | none => none
  | some f =>
    if f.readOk ∧ localTSCol ∈ f.columns ∧ 2 ≤ f.columns.length then
      some (sig, f.timeVals.zip f.dataVals)
    else none

/-- Model of `load_emotibit_data(folder_path, signals_to_plot)` with the folder
abstracted to its file list: returns the loaded channel series and the
experiment date string, or `([], none)` on the early error returns. -/
def load_emotibit_data (files : List FileRec) (sigs : List (List Char)) :
    List (List Char × Series) × Option (List Char) :=
  let all := files.filter (fun f => endsWithPat f.name csvSuffix)
  if all.isEmpty then ([], none)
  else
    match findDateStr all with
    | none => ([], none)
    | some dstr => (sigs.filterMap (loadChannel files), some dstr)

/-- The list `SIGNALS_TO_PLOT = list(CHANNELS.keys())` (lines 18–27). -/
def SIGNALS_TO_PLOT : List (List Char) :=
  ["AX".toList, "AY".toList, "AZ".toList,
   "GX".toList, "GY".toList, "GZ".toList,
   "EA".toList, "EL".toList,
   "SF".toList, "SA".toList, "SR".toList,
   "T1".toList, "TH".toList,
   "PI".toList, "PR".toList, "PG".toList,
   "BI".toList, "HR".toList]

/-! ### Annotation placement in `plot_and_save_signal`
(run_visualizer.py lines 198–254)

Only the annotation-placement logic is data-relevant; here instants
are modelled as integers, since both the series timestamps and the
annotation timestamps are timezone-aware instants that the plotting
code compares by absolute time. -/

structure PlotAnn where
  time : Int
  text : List Char
deriving DecidableEq, Repr

/-- Value of `df['est_time'].min()` over a non-empty series. -/
def listMin (t : Int) (ts : List Int) : Int := ts.foldl min t

/-- Value of `df['est_time'].max()` over a non-empty series. -/
def listMax (t : Int) (ts : List Int) : Int := ts.foldl max t

/-- The annotation loop of lines 221–239: an annotation is drawn
exactly when `min_time_data <= time_point <= max_time_data`
(out-of-range annotations are `continue`d over, never clamped); the
placed annotations keep their list order, which drives the stagger
levels.  An empty series never reaches this loop (early return,
line 200). -/
def placedAnnots (times : List Int) (anns : List PlotAnn) : List PlotAnn :=
  match times with
  | [] => []
  | t :: ts =>
    anns.filter (fun a => listMin t ts ≤ a.time ∧ a.time ≤ listMax t ts)

/-- The per-channel render loop of `process_folder` (lines 286–288):
every channel is rendered against the same `schedule_data`
annotation list. -/
def renderPass (channels : List (List Char × List Int))
    (anns : List PlotAnn) : List (List Char × List PlotAnn) :=
  channels.map (fun ch => (ch.1, placedAnnots ch.2 anns))

/-! ### `process_folder` (run_visualizer.py lines 258–289) -/

/-- A session folder: its path (used for the AM/PM test), its files,
and whether the path is a directory. -/
structure Folder where
  path : List Char
  files : List FileRec
  isDir : Bool := true
deriving DecidableEq, Repr

/-- The uncaught Python exceptions `process_folder` can raise;
`indexError` is `list[0]` on an empty list. -/
inductive PyErr
  | indexError
deriving DecidableEq, Repr

def schedSuffix : List Char :=
  ' ' :: 'C' :: 'o' :: 'm' :: 'b' :: 'i' :: 'n' :: 'e' :: 'd' :: ' ' ::
  'O' :: 'b' :: 's' :: 'e' :: 'r' :: 'v' :: 'a' :: 't' :: 'i' :: 'o' ::
  'n' :: 's' :: csvSuffix

/-- What a processed session produces: the list of channel codes that
get a chart (channels whose series is non-empty; empty ones are
skipped by the renderer) and the schedule data shared by all of
them. -/
structure SessionOut where
  charts : List (List Char)
  sched : Option SchedData
deriving DecidableEq, Repr

/-- Model of `process_folder(folder_path)`.  Line 263 evaluates
`glob.glob(os.path.join(folder_path, '* Combined Observations.csv'))[0]`
before anything else: with no matching file the `[0]` raises an
uncaught `IndexError` (modelled as `.error .indexError`), which also
terminates the caller's batch loop (lines 305–306 have no handler).
When a match exists, `os.path.exists` on it is true, so
`load_music_schedule` is entered with `fileExists = true`.  `.ok none`
models the early `return`s that skip the folder. -/
def process_folder (fl : Folder) : Except PyErr (Option SessionOut) :=
  match (fl.files.filter (fun f => endsWithPat f.name schedSuffix)).head? with
  | none => .error .indexError
  | some schedFile =>
    if ¬ fl.isDir then .ok none
    else
      let loaded := load_emotibit_data fl.files SIGNALS_TO_PLOT
      match loaded.2 with
      | none => .ok none
      | some d =>
        let sd := load_music_schedule true schedFile.schedRows d fl.path
        if loaded.1.isEmpty then .ok none
        else
          .ok (some ⟨(loaded.1.filter (fun c => ¬ c.2.isEmpty)).map
                       Prod.fst, sd⟩)

/-! ### Spec-side helpers for stating the session-window properties -/

/-- The rows up to and including the first "music end" row — the part
of the event list the window loop actually scans before `break`ing. -/
def truncAtMusicEnd : List Event → List Event
  | [] => []
  | e :: es => if hasMusicEnd e then [e] else e :: truncAtMusicEnd es

/-- Instant of the first event with a non-empty label. -/
def firstLabeled (es : List Event) : Option Timestamp :=
  (es.find? (fun e => !(e.song.isEmpty))).map Event.time

/-! ### Concrete inputs used by counterexamples and witnesses -/

def c2row0 : Row := ⟨some "9:00".toList, none, none, some "Music end".toList⟩

def c2row1 : Row := ⟨some "9:05".toList, some "SongA".toList, none, none⟩

def c2date : List Char := "20240102".toList

def c2path : List Char := "sessions/morning-1".toList

def wrowA : Row := ⟨some "9:00".toList, some "SongA".toList, some "8".toList, none⟩

def wrowB : Row := ⟨some "9:05".toList, some "SongB".toList, some "9".toList, none⟩

def wrowEnd : Row := ⟨some "9:10".toList, none, none, some "Music end".toList⟩

def wrowBad : Row := ⟨some "oops".toList, some "SongX".toList, none, none⟩

def c1Chan : FileRec :=
  ⟨"2024-01-02_HR.csv".toList, [localTSCol, "HR".toList],
   [100, 200], [1, 2], [], true⟩

def c1Folder : Folder := ⟨"sessions/morning-1".toList, [c1Chan], true⟩

def c8File : FileRec := ⟨"HR_data.csv".toList, [], [], [], [], true⟩

def wrowT : Row := ⟨some "9:20".toList, none, none, none⟩

def wresC6 : SchedData :=
  ⟨[⟨⟨2024, 1, 2, 9, 0, 0⟩, "SongA\x0a(Score: 8)".toList⟩,
    ⟨⟨2024, 1, 2, 9, 20, 0⟩, []⟩],
   some ⟨2024, 1, 2, 9, 0, 0⟩, ⟨2024, 1, 2, 9, 20, 0⟩⟩

/-! ## Lemmas about the session-window loop -/

theorem windowLoop_snd (es : List Event) (acc : Option Timestamp) :
    (windowLoop acc es).2 = (es.find? hasMusicEnd).map Event.time := by
  induction es generalizing acc with
  | nil => simp [windowLoop]
  | cons e rest ih =>
    by_cases hm : hasMusicEnd e
    · simp [windowLoop, hm, List.find?_cons_of_pos]
    · simp [windowLoop, hm, List.find?_cons_of_neg, ih]

theorem windowLoop_fst_some (es : List Event) (t : Timestamp) :
    (windowLoop (some t) es).1 = some t := by
  induction es with
  | nil => rfl
  | cons e rest ih =>
    by_cases hm : hasMusicEnd e
    · simp [windowLoop, hm]
    · simp [windowLoop, hm, ih]

theorem windowLoop_fst_none (es : List Event) :
    (windowLoop none es).1 = firstLabeled (truncAtMusicEnd es) := by
  induction es with
  | nil => rfl
  | cons e rest ih =>
    by_cases hs : e.song = []
    · by_cases hm : hasMusicEnd e
      · simp [windowLoop, truncAtMusicEnd, firstLabeled, hm, hs]
      · simp only [windowLoop, truncAtMusicEnd, hm, if_false]
        simp only [firstLabeled, List.find?_cons, List.isEmpty_iff, hs]
        simpa [windowLoop, hs, firstLabeled] using ih
    · by_cases hm : hasMusicEnd e
      · simp [windowLoop, truncAtMusicEnd, firstLabeled, hm, hs, List.find?_cons_of_pos,
          List.isEmpty_iff]
      · simp [windowLoop, truncAtMusicEnd, firstLabeled, hm, hs, windowLoop_fst_some,
          List.find?_cons_of_pos, List.isEmpty_iff]

theorem getLast?_cons_getLastD {α : Type} (a : α) (l : List α) :
    (a :: l).getLast? = some ((a :: l).getLastD a) := by
  induction l generalizing a with
  | nil => rfl
  | cons b bs ih => simpa using ih b

theorem isEmpty_append_cons {α : Type} (l1 l2 : List α) (a : α) :
    (l1 ++ a :: l2).isEmpty = false := by
  cases l1 <;> rfl

theorem load_music_schedule_true_eq (rows : List Row) (d p : List Char) :
    load_music_schedule true rows d p =
      if (rows.filter (fun r => !(isBlankRow r))).isEmpty then none
      else
        match (rows.filter (fun r => !(isBlankRow r))).filterMap
            (rowEvent (isAfternoonOf p) d) with
        | [] => none
        | e0 :: rest =>
          some ⟨(e0 :: rest).map (fun e => ⟨e.time, annText e⟩),
                (windowLoop none (e0 :: rest)).1,
                ((windowLoop none (e0 :: rest)).2.getD
                  ((e0 :: rest).getLastD e0).time)⟩ := by
  unfold load_music_schedule
  rw [if_neg (by simp)]

theorem load_music_schedule_inv (rows : List Row) (d p : List Char) (res : SchedData)
    (h : load_music_schedule true rows d p = some res) :
    ∃ e0 rest, eventsOf (isAfternoonOf p) d rows = e0 :: rest ∧
      res.annots = (e0 :: rest).map (fun e => ⟨e.time, annText e⟩) ∧
      res.musicStart = (windowLoop none (e0 :: rest)).1 ∧
      res.musicEnd = (windowLoop none (e0 :: rest)).2.getD
        ((e0 :: rest).getLastD e0).time := by
  unfold load_music_schedule at h
  rw [if_neg (by simp)] at h
  by_cases hk : (rows.filter (fun r => !(isBlankRow r))).isEmpty
  · rw [if_pos hk] at h; cases h
  · rw [if_neg hk] at h
    unfold eventsOf
    cases hev : (rows.filter (fun r => !(isBlankRow r))).filterMap
        (rowEvent (isAfternoonOf p) d) with
    | nil => rw [hev] at h; cases h
    | cons e0 rest =>
      rw [hev] at h
      refine ⟨e0, rest, rfl, ?_, ?_, ?_⟩ <;>
        · injection h with h'; rw [← h']

/-! ## Claim C2 -/

/-- C2 counterexample: in a schedule whose first row carries the
"music end" marker and whose second row is the first (and only) row
with a non-empty label, the code leaves `music_start` unset (`none`)
even though the second row's label is non-empty and its time parses
to 09:05 — so the start is *not* the instant of the first labelled
row regardless of where "music end" appears. -/
theorem musicStart_ignores_later_label_cex :
    (load_music_schedule true [c2row0, c2row1] c2date c2path).map
        SchedData.musicStart = some none ∧
    c2row0.song = none ∧
    stripStr (c2row1.song.getD []) = "SongA".toList ∧
    (rowEvent (isAfternoonOf c2path) c2date c2row1).map
        (fun e => (e.time.hour, e.time.minute, e.time.second)) =
      some (9, 5, 0) :=
  ⟨rfl, rfl, rfl, rfl⟩

/-- C2 (amended): for every schedule with at least one usable row,
`SessionWindow.start` equals the instant of the first row, in file
order, with a non-empty label **among the rows up to and including the
first row whose observation contains "music end" case-insensitively**
(all rows when no such row exists); if no such row has a non-empty
label, start is absent. -/
theorem musicStart_first_label_before_music_end (rows : List Row)
    (d p : List Char) (res : SchedData)
    (h : load_music_schedule true rows d p = some res) :
    res.musicStart =
      firstLabeled (truncAtMusicEnd (eventsOf (isAfternoonOf p) d rows)) := by
  obtain ⟨e0, rest, hev, -, hstart, -⟩ := load_music_schedule_inv rows d p res h
  rw [hev, hstart, windowLoop_fst_none]

theorem musicStart_first_label_before_music_end_witness :
    load_music_schedule true [wrowA, wrowB, wrowEnd] c2date c2path =
      some ⟨[⟨⟨2024, 1, 2, 9, 0, 0⟩, "SongA\x0a(Score: 8)".toList⟩,
             ⟨⟨2024, 1, 2, 9, 5, 0⟩, "SongB\x0a(Score: 9)".toList⟩,
             ⟨⟨2024, 1, 2, 9, 10, 0⟩, "Music end".toList⟩],
            some ⟨2024, 1, 2, 9, 0, 0⟩, ⟨2024, 1, 2, 9, 10, 0⟩⟩ ∧
    (some ⟨2024, 1, 2, 9, 0, 0⟩ : Option Timestamp) =
      firstLabeled (truncAtMusicEnd
        (eventsOf (isAfternoonOf c2path) c2date [wrowA, wrowB, wrowEnd])) :=
  ⟨rfl, musicStart_first_label_before_music_end [wrowA, wrowB, wrowEnd]
    c2date c2path _ rfl⟩

/-! ## Claim C3 -/

/-- C3: for every schedule with at least one usable row, the session
end is the instant of the first event (file order) whose observation
contains "music end" case-insensitively; if no event has the marker,
it is the last usable row's instant. -/
theorem musicEnd_first_marker_else_last (rows : List Row)
    (d p : List Char) (res : SchedData)
    (h : load_music_schedule true rows d p = some res) :
    (∀ e, (eventsOf (isAfternoonOf p) d rows).find? hasMusicEnd = some e →
        res.musicEnd = e.time) ∧
    ((eventsOf (isAfternoonOf p) d rows).find? hasMusicEnd = none →
        (eventsOf (isAfternoonOf p) d rows).getLast?.map Event.time =
          some res.musicEnd) := by
  obtain ⟨e0, rest, hev, -, -, hend⟩ := load_music_schedule_inv rows d p res h
  rw [hev, hend, windowLoop_snd]
  constructor
  · intro e hfind; rw [hfind]; rfl
  · intro hfind
    rw [hfind, getLast?_cons_getLastD]
    rfl

theorem musicEnd_first_marker_else_last_witness :
    load_music_schedule true [wrowA, wrowEnd, wrowB] c2date c2path =
      some ⟨[⟨⟨2024, 1, 2, 9, 0, 0⟩, "SongA\x0a(Score: 8)".toList⟩,
             ⟨⟨2024, 1, 2, 9, 10, 0⟩, "Music end".toList⟩,
             ⟨⟨2024, 1, 2, 9, 5, 0⟩, "SongB\x0a(Score: 9)".toList⟩],
            some ⟨2024, 1, 2, 9, 0, 0⟩, ⟨2024, 1, 2, 9, 10, 0⟩⟩ ∧
    (eventsOf (isAfternoonOf c2path) c2date [wrowA, wrowEnd, wrowB]).find?
        hasMusicEnd =
      some ⟨⟨2024, 1, 2, 9, 10, 0⟩, [], [], "Music end".toList⟩ ∧
    (⟨[⟨⟨2024, 1, 2, 9, 0, 0⟩, "SongA\x0a(Score: 8)".toList⟩,
       ⟨⟨2024, 1, 2, 9, 10, 0⟩, "Music end".toList⟩,
       ⟨⟨2024, 1, 2, 9, 5, 0⟩, "SongB\x0a(Score: 9)".toList⟩],
      some ⟨2024, 1, 2, 9, 0, 0⟩,
      ⟨2024, 1, 2, 9, 10, 0⟩⟩ : SchedData).musicEnd =
      (⟨⟨2024, 1, 2, 9, 10, 0⟩, [], [], "Music end".toList⟩ : Event).time :=
  ⟨rfl, rfl,
    (musicEnd_first_marker_else_last [wrowA, wrowEnd, wrowB] c2date c2path
      _ rfl).1 _ rfl⟩

/-! ## Claim C5 -/

/-- C5: for every successfully parsed time, `is_afternoon = true` maps
parsed hours 1–11 to 13–23 and leaves 0 and 12 unchanged;
`is_afternoon = false` changes no hour. -/
theorem pm_hour_adjustment (t d : List Char) (hh mm ss : Nat)
    (hp : parseClock (cleanTime t) = some (hh, mm, ss)) :
    (∀ ts : Timestamp, parse_time t d true = some ts →
       ((1 ≤ hh ∧ hh ≤ 11 → ts.hour = hh + 12 ∧ 13 ≤ ts.hour ∧ ts.hour ≤ 23) ∧
        (hh = 0 ∨ hh = 12 → ts.hour = hh))) ∧
    (∀ ts : Timestamp, parse_time t d false = some ts → ts.hour = hh) := by
  unfold parse_time
  rw [hp]
  cases hd : parseDate8 d with
  | none => refine ⟨fun ts hts => ?_, fun ts hts => ?_⟩ <;> cases hts
  | some ymd =>
    obtain ⟨yy, mo, dd⟩ := ymd
    constructor
    · intro ts hts
      injection hts with hts
      constructor
      · intro hr
        have : ts.hour = adjustHour true hh := by rw [← hts]
        rw [this, adjustHour, if_pos (by simp [hr.1, hr.2])]
        omega
      · intro hr
        have : ts.hour = adjustHour true hh := by rw [← hts]
        rw [this, adjustHour, if_neg (by rcases hr with rfl | rfl <;> simp)]
    · intro ts hts
      injection hts with hts
      have : ts.hour = adjustHour false hh := by rw [← hts]
      rw [this, adjustHour, if_neg (by simp)]

theorem pm_hour_adjustment_witness :
    parseClock (cleanTime "3:05:10".toList) = some (3, 5, 10) ∧
    parse_time "3:05:10".toList "20240102".toList true =
      some ⟨2024, 1, 2, 15, 5, 10⟩ ∧
    (⟨2024, 1, 2, 15, 5, 10⟩ : Timestamp).hour = 3 + 12 :=
  ⟨rfl, rfl,
    (((pm_hour_adjustment "3:05:10".toList "20240102".toList 3 5 10 rfl).1
      ⟨2024, 1, 2, 15, 5, 10⟩ rfl).1 (by omega)).1⟩

/-! ## Claim C8 -/

/-- C8: if no filename's leading token (up to the first underscore)
parses as a valid `%Y-%m-%d` date, the whole session load fails:
no channels are loaded and no date is returned, whatever the
individual files contain. -/
theorem no_valid_date_no_channels (files : List FileRec)
    (sigs : List (List Char))
    (h : ∀ f ∈ files, parseISODate (dateToken f.name) = none) :
    load_emotibit_data files sigs = ([], none) := by
  unfold load_emotibit_data
  by_cases hall : (files.filter (fun f => endsWithPat f.name csvSuffix)).isEmpty
  · rw [if_pos hall]
  · rw [if_neg hall]
    have hfd : findDateStr (files.filter
        (fun f => endsWithPat f.name csvSuffix)) = none := by
      unfold findDateStr
      rw [List.find?_eq_none.mpr]
      · rfl
      · intro f hf
        have := h f (List.mem_of_mem_filter hf)
        simp [this]
    rw [hfd]

theorem no_valid_date_no_channels_witness :
    (∀ f ∈ [c8File], parseISODate (dateToken f.name) = none) ∧
    load_emotibit_data [c8File] SIGNALS_TO_PLOT = ([], none) :=
  ⟨by decide, no_valid_date_no_channels [c8File] SIGNALS_TO_PLOT (by decide)⟩

/-! ## Claim C9 -/

/-- C9: an annotation whose instant is strictly outside a channel's
`[min, max]` time range is not placed on that channel's chart and is
not clamped (everything placed is an unmodified member of the shared
list); the same shared list is what every other channel's render pass
filters, so a channel with a wide enough range still places it. -/
theorem out_of_range_annot_dropped (t : Int) (ts : List Int)
    (t' : Int) (ts' : List Int) (anns : List PlotAnn) (a : PlotAnn)
    (nameA nameB : List Char)
    (ha : a ∈ anns)
    (hout : a.time < listMin t ts ∨ listMax t ts < a.time)
    (hin : listMin t' ts' ≤ a.time ∧ a.time ≤ listMax t' ts') :
    a ∉ placedAnnots (t :: ts) anns ∧
    (∀ b ∈ placedAnnots (t :: ts) anns, b ∈ anns) ∧
    a ∈ placedAnnots (t' :: ts') anns ∧
    renderPass [(nameA, t :: ts), (nameB, t' :: ts')] anns =
      [(nameA, placedAnnots (t :: ts) anns),
       (nameB, placedAnnots (t' :: ts') anns)] := by
  refine ⟨?_, ?_, ?_, rfl⟩
  · intro hmem
    have := (List.mem_filter.mp hmem).2
    simp only [decide_eq_true_eq] at this
    omega
  · intro b hb
    exact (List.mem_filter.mp hb).1
  · exact List.mem_filter.mpr ⟨ha, by simp only [decide_eq_true_eq]; exact hin⟩

theorem out_of_range_annot_dropped_witness :
    (⟨5, []⟩ : PlotAnn) ∈ [(⟨5, []⟩ : PlotAnn)] ∧
    ((5 : Int) < listMin 10 [20] ∨ listMax 10 [20] < (5 : Int)) ∧
    (listMin 0 [100] ≤ (5 : Int) ∧ (5 : Int) ≤ listMax 0 [100]) ∧
    (⟨5, []⟩ : PlotAnn) ∉ placedAnnots [10, 20] [⟨5, []⟩] ∧
    (⟨5, []⟩ : PlotAnn) ∈ placedAnnots [0, 100] [⟨5, []⟩] := by
  have h := out_of_range_annot_dropped 10 [20] 0 [100] [⟨5, []⟩] ⟨5, []⟩
    [] [] (by decide) (by decide) (by decide)
  exact ⟨by decide, by decide, by decide, h.1, h.2.2.1⟩

/-! ## Claim C10 -/

/-- C10: the loader decides PM solely by whether the lowercased
session folder path contains "afternoon": two paths agreeing on that
test load identically, and a row's hour gains 12 exactly when the
test succeeds and the parsed hour is in 1–11. -/
theorem afternoon_substring_decides_pm (rows : List Row)
    (d p q : List Char) (h : isAfternoonOf p = isAfternoonOf q) :
    load_music_schedule true rows d p = load_music_schedule true rows d q ∧
    (∀ r : Row, ∀ hh mm ss : Nat, ∀ e : Event,
      parseClock (cleanTime (stripStr (timeText r.time))) = some (hh, mm, ss) →
      rowEvent (isAfternoonOf p) d r = some e →
      e.time.hour =
        if isAfternoonOf p ∧ (1 ≤ hh ∧ hh ≤ 11) then hh + 12 else hh) := by
  constructor
  · unfold load_music_schedule
    rw [h]
  · intro r hh mm ss e hp hre
    unfold rowEvent parse_time at hre
    rw [hp] at hre
    cases hd : parseDate8 d with
    | none => rw [hd] at hre; cases hre
    | some ymd =>
      obtain ⟨yy, mo, dd⟩ := ymd
      rw [hd] at hre
      injection hre with hre
      rw [← hre]
      rfl

theorem afternoon_substring_decides_pm_witness :
    isAfternoonOf "base/Afternoon-2".toList =
      isAfternoonOf "AFTERNOON data".toList ∧
    load_music_schedule true [wrowA] c2date "base/Afternoon-2".toList =
      load_music_schedule true [wrowA] c2date "AFTERNOON data".toList ∧
    parseClock (cleanTime (stripStr (timeText wrowA.time))) = some (9, 0, 0) ∧
    rowEvent (isAfternoonOf "base/Afternoon-2".toList) c2date wrowA =
      some ⟨⟨2024, 1, 2, 21, 0, 0⟩, "SongA".toList, "8".toList, []⟩ ∧
    (⟨⟨2024, 1, 2, 21, 0, 0⟩, "SongA".toList, "8".toList, []⟩ : Event).time.hour
      = if isAfternoonOf "base/Afternoon-2".toList ∧ (1 ≤ 9 ∧ 9 ≤ 11)
        then 9 + 12 else 9 := by
  have h := afternoon_substring_decides_pm [wrowA] c2date
    "base/Afternoon-2".toList "AFTERNOON data".toList rfl
  exact ⟨rfl, h.1, rfl, rfl, h.2 wrowA 9 0 0 _ rfl rfl⟩

/-! ## Claim C7 -/

/-- C7: a row whose time text fails to parse is skipped — the whole
schedule loads exactly as if the row were absent, so it contributes no
annotation and no window bound, later rows are still processed, and
loading never aborts. -/
theorem bad_time_row_skipped (rows1 rows2 : List Row) (bad : Row)
    (d p : List Char)
    (h : parseClock (cleanTime (stripStr (timeText bad.time))) = none) :
    load_music_schedule true (rows1 ++ bad :: rows2) d p =
      load_music_schedule true (rows1 ++ rows2) d p := by
  have hre : rowEvent (isAfternoonOf p) d bad = none := by
    unfold rowEvent parse_time
    rw [h]
  rw [load_music_schedule_true_eq, load_music_schedule_true_eq]
  by_cases hb : isBlankRow bad
  · have hfil : (rows1 ++ bad :: rows2).filter (fun r => !(isBlankRow r)) =
        (rows1 ++ rows2).filter (fun r => !(isBlankRow r)) := by
      simp [List.filter_append, List.filter_cons, hb]
    rw [hfil]
  · have hfil : (rows1 ++ bad :: rows2).filter (fun r => !(isBlankRow r)) =
        rows1.filter (fun r => !(isBlankRow r)) ++ bad ::
          rows2.filter (fun r => !(isBlankRow r)) := by
      simp [List.filter_append, List.filter_cons, hb]
    have hfil2 : (rows1 ++ rows2).filter (fun r => !(isBlankRow r)) =
        rows1.filter (fun r => !(isBlankRow r)) ++
          rows2.filter (fun r => !(isBlankRow r)) := List.filter_append _ _
    rw [hfil, hfil2]
    rw [if_neg (by rw [isEmpty_append_cons]; exact Bool.false_ne_true)]
    by_cases hk : (rows1.filter (fun r => !(isBlankRow r)) ++
        rows2.filter (fun r => !(isBlankRow r))).isEmpty
    · rw [if_pos hk]
      obtain ⟨h1, h2⟩ := List.append_eq_nil.mp (List.isEmpty_iff.mp hk)
      rw [h1, h2]
      simp [List.filterMap_cons, hre]
    · rw [if_neg hk]
      have hev : (rows1.filter (fun r => !(isBlankRow r)) ++ bad ::
            rows2.filter (fun r => !(isBlankRow r))).filterMap
            (rowEvent (isAfternoonOf p) d) =
          (rows1.filter (fun r => !(isBlankRow r)) ++
            rows2.filter (fun r => !(isBlankRow r))).filterMap
            (rowEvent (isAfternoonOf p) d) := by
        simp [List.filterMap_append, List.filterMap_cons, hre]
      rw [hev]

theorem bad_time_row_skipped_witness :
    parseClock (cleanTime (stripStr (timeText wrowBad.time))) = none ∧
    load_music_schedule true [wrowA, wrowBad, wrowEnd] c2date c2path =
      load_music_schedule true [wrowA, wrowEnd] c2date c2path ∧
    load_music_schedule true [wrowA, wrowEnd] c2date c2path =
      some ⟨[⟨⟨2024, 1, 2, 9, 0, 0⟩, "SongA\x0a(Score: 8)".toList⟩,
             ⟨⟨2024, 1, 2, 9, 10, 0⟩, "Music end".toList⟩],
            some ⟨2024, 1, 2, 9, 0, 0⟩, ⟨2024, 1, 2, 9, 10, 0⟩⟩ :=
  ⟨rfl, bad_time_row_skipped [wrowA] [wrowEnd] wrowBad c2date c2path rfl, rfl⟩

/-! ## Lemmas about stripped strings and newline joins -/

theorem dropWS_head (l : List Char) (c : Char)
    (h : (dropWS l).head? = some c) : isWSC c = false := by
  induction l with
  | nil => cases h
  | cons a as ih =>
    rw [dropWS, List.dropWhile_cons] at h
    by_cases ha : isWSC a
    · rw [if_pos ha] at h
      exact ih h
    · rw [if_neg ha] at h
      injection h with h
      rw [← h]
      simpa using ha

theorem getLast?_cons_of_ne {α : Type} (a : α) (l : List α) (h : l ≠ []) :
    (a :: l).getLast? = l.getLast? := by
  cases l with
  | nil => cases h rfl
  | cons b bs => exact List.getLast?_cons_cons

theorem getLast?_dropWhile_of_ne_nil (p : Char → Bool) (l : List Char)
    (h : l.dropWhile p ≠ []) : (l.dropWhile p).getLast? = l.getLast? := by
  induction l with
  | nil => simp at h
  | cons a as ih =>
    rw [List.dropWhile_cons] at h ⊢
    by_cases ha : p a
    · rw [if_pos ha] at h ⊢
      have has : as ≠ [] := by
        intro he
        rw [he] at h
        simp at h
      rw [ih h, getLast?_cons_of_ne a as has]
    · rw [if_neg ha] at h ⊢

theorem stripStr_getLast_not_ws (l : List Char) (c : Char)
    (h : (stripStr l).getLast? = some c) : isWSC c = false := by
  unfold stripStr at h
  rw [List.getLast?_reverse] at h
  exact dropWS_head _ c h

theorem stripStr_head_not_ws (l : List Char) (c : Char)
    (h : (stripStr l).head? = some c) : isWSC c = false := by
  unfold stripStr at h
  rw [List.head?_reverse] at h
  have hne : dropWS ((dropWS l).reverse) ≠ [] := by
    intro he
    rw [he] at h
    cases h
  rw [dropWS, getLast?_dropWhile_of_ne_nil _ _ hne] at h
  rw [List.getLast?_reverse] at h
  exact dropWS_head _ c h

theorem joinNL_ne_nil (parts : List (List Char)) (h0 : parts ≠ [])
    (h : ∀ q ∈ parts, q ≠ []) : joinNL parts ≠ [] := by
  match parts with
  | [] => cases h0 rfl
  | [p] => exact h p (by simp)
  | p :: q :: ps =>
    rw [joinNL]
    simp

theorem joinNL_head?_mem (parts : List (List Char))
    (hq : ∀ q ∈ parts, q ≠ []) (c : Char)
    (h : (joinNL parts).head? = some c) :
    ∃ q ∈ parts, q.head? = some c := by
  induction parts with
  | nil => cases h
  | cons p rest ih =>
    cases rest with
    | nil => exact ⟨p, by simp, h⟩
    | cons q ps =>
      rw [joinNL] at h
      have hp : p ≠ [] := hq p (by simp)
      rw [List.head?_append_of_ne_nil _ hp] at h
      exact ⟨p, by simp, h⟩

theorem joinNL_getLast?_mem (parts : List (List Char))
    (hq : ∀ q ∈ parts, q ≠ []) (c : Char)
    (h : (joinNL parts).getLast? = some c) :
    ∃ q ∈ parts, q.getLast? = some c := by
  induction parts with
  | nil => cases h
  | cons p rest ih =>
    cases rest with
    | nil => exact ⟨p, by simp, h⟩
    | cons q ps =>
      rw [joinNL] at h
      have hj : joinNL (q :: ps) ≠ [] :=
        joinNL_ne_nil (q :: ps) (by simp)
          (fun x hx => hq x (List.mem_cons_of_mem p hx))
      rw [List.getLast?_append_of_ne_nil _ (by simp),
          getLast?_cons_of_ne _ _ hj] at h
      obtain ⟨x, hx, hlast⟩ := ih (fun x hx => hq x (List.mem_cons_of_mem p hx)) h
      exact ⟨x, List.mem_cons_of_mem p hx, hlast⟩

theorem annText_parts_cases (e : Event) (q : List Char)
    (h : q ∈ ((if e.song ≠ [] then [e.song] else []) ++
            (if e.score ≠ [] then [scoreWrap e.score] else [])) ++
           (if e.obs ≠ [] then [e.obs] else [])) :
    (q = e.song ∧ e.song ≠ []) ∨ q = scoreWrap e.score ∨
      (q = e.obs ∧ e.obs ≠ []) := by
  rcases List.mem_append.mp h with h12 | h3
  · rcases List.mem_append.mp h12 with h1 | h2
    · left
      constructor
      · split at h1 <;> simp_all
      · split at h1 <;> simp_all
    · right; left
      split at h2 <;> simp_all
  · right; right
    constructor
    · split at h3 <;> simp_all
    · split at h3 <;> simp_all

theorem annText_parts_ne_nil (e : Event) (q : List Char)
    (h : q ∈ ((if e.song ≠ [] then [e.song] else []) ++
            (if e.score ≠ [] then [scoreWrap e.score] else [])) ++
           (if e.obs ≠ [] then [e.obs] else [])) : q ≠ [] := by
  rcases annText_parts_cases e q h with ⟨rfl, hs⟩ | rfl | ⟨rfl, hs⟩
  · exact hs
  · simp [scoreWrap]
  · exact hs

theorem ws_ne_newline (c : Char) (h : isWSC c = false) : c ≠ '\n' := by
  intro he
  subst he
  exact absurd h (by decide)

theorem scoreWrap_head? (s : List Char) : (scoreWrap s).head? = some '(' := rfl

theorem scoreWrap_getLast? (s : List Char) :
    (scoreWrap s).getLast? = some ')' := by
  unfold scoreWrap
  rw [List.getLast?_append_of_ne_nil _ (by simp)]
  rfl

theorem annText_no_blank_edge (e : Event)
    (h1 : ∀ c, e.song.head? = some c → isWSC c = false)
    (h2 : ∀ c, e.song.getLast? = some c → isWSC c = false)
    (h3 : ∀ c, e.obs.head? = some c → isWSC c = false)
    (h4 : ∀ c, e.obs.getLast? = some c → isWSC c = false) :
    (∀ c, (annText e).head? = some c → c ≠ '\n') ∧
    (∀ c, (annText e).getLast? = some c → c ≠ '\n') := by
  constructor
  · intro c hc
    unfold annText at hc
    obtain ⟨q, hqm, hqh⟩ :=
      joinNL_head?_mem _ (fun q hq => annText_parts_ne_nil e q hq) c hc
    rcases annText_parts_cases e q hqm with ⟨rfl, -⟩ | rfl | ⟨rfl, -⟩
    · exact ws_ne_newline c (h1 c hqh)
    · rw [scoreWrap_head?] at hqh
      injection hqh with hqh
      rw [← hqh]
      decide
    · exact ws_ne_newline c (h3 c hqh)
  · intro c hc
    unfold annText at hc
    obtain ⟨q, hqm, hqh⟩ :=
      joinNL_getLast?_mem _ (fun q hq => annText_parts_ne_nil e q hq) c hc
    rcases annText_parts_cases e q hqm with ⟨rfl, -⟩ | rfl | ⟨rfl, -⟩
    · exact ws_ne_newline c (h2 c hqh)
    · rw [scoreWrap_getLast?] at hqh
      injection hqh with hqh
      rw [← hqh]
      decide
    · exact ws_ne_newline c (h4 c hqh)

/-! ## Claim C6 -/

/-- C6: every event (one per row with a successfully parsed time)
yields exactly one annotation entry whose text is the newline-join of
label, `"(Score: <score>)"` and observation, each included only when
non-empty; the text never starts or ends with a newline (so no
leading/trailing blank line), and a row with all three fields blank
yields an entry with empty text. -/
theorem annotText_composition (rows : List Row) (d p : List Char)
    (res : SchedData)
    (h : load_music_schedule true rows d p = some res) :
    res.annots = (eventsOf (isAfternoonOf p) d rows).map
        (fun e => ⟨e.time, annText e⟩) ∧
    (∀ r : Row, ∀ e : Event, rowEvent (isAfternoonOf p) d r = some e →
      ((∀ c, (annText e).head? = some c → c ≠ '\n') ∧
       (∀ c, (annText e).getLast? = some c → c ≠ '\n') ∧
       (e.song = [] → e.score = [] → e.obs = [] → annText e = []))) := by
  constructor
  · obtain ⟨e0, rest, hev, hann, -, -⟩ := load_music_schedule_inv rows d p res h
    rw [hev, hann]
  · intro r e hre
    unfold rowEvent at hre
    cases hp : parse_time (stripStr (timeText r.time)) d (isAfternoonOf p) with
    | none => rw [hp] at hre; cases hre
    | some t =>
      rw [hp] at hre
      injection hre with hre
      subst hre
      have hedge := annText_no_blank_edge
        ⟨t, stripStr (r.song.getD []), stripStr (r.score.getD []),
         stripStr (r.obs.getD [])⟩
        (fun c hc => stripStr_head_not_ws _ c hc)
        (fun c hc => stripStr_getLast_not_ws _ c hc)
        (fun c hc => stripStr_head_not_ws _ c hc)
        (fun c hc => stripStr_getLast_not_ws _ c hc)
      refine ⟨hedge.1, hedge.2, ?_⟩
      intro hs hsc ho
      simp only at hs hsc ho
      simp [annText, hs, hsc, ho, joinNL]

theorem annotText_composition_witness :
    load_music_schedule true [wrowA, wrowT] c2date c2path = some wresC6 ∧
    (wresC6.annots = (eventsOf (isAfternoonOf c2path) c2date [wrowA, wrowT]).map
        (fun e => ⟨e.time, annText e⟩) ∧
     (∀ r : Row, ∀ e : Event,
        rowEvent (isAfternoonOf c2path) c2date r = some e →
        ((∀ c, (annText e).head? = some c → c ≠ '\n') ∧
         (∀ c, (annText e).getLast? = some c → c ≠ '\n') ∧
         (e.song = [] → e.score = [] → e.obs = [] → annText e = [])))) :=
  ⟨rfl, annotText_composition [wrowA, wrowT] c2date c2path wresC6 rfl⟩

/-! ## Character-class lemmas for the time-string cleaner -/

theorem lowerChar_eq_self (c : Char) (h : ¬ (65 ≤ c.toNat ∧ c.toNat ≤ 90)) :
    lowerChar c = c := by
  unfold lowerChar
  rw [if_neg h]

theorem digit_facts (c : Char) (h : isDigitC c = true) :
    lowerChar c = c ∧ c ≠ 'a' ∧ c ≠ 'p' ∧ isWSC c = false := by
  have hn : 48 ≤ c.toNat ∧ c.toNat ≤ 57 := by
    simpa [isDigitC, Bool.and_eq_true, decide_eq_true_eq] using h
  refine ⟨lowerChar_eq_self c (by omega), ?_, ?_, ?_⟩
  · intro he; subst he; exact absurd h (by decide)
  · intro he; subst he; exact absurd h (by decide)
  · simp only [isWSC, Bool.or_eq_false_iff, decide_eq_false_iff_not]
    omega

theorem colon_facts :
    lowerChar ':' = ':' ∧ (':' : Char) ≠ 'a' ∧ (':' : Char) ≠ 'p' ∧
      isWSC ':' = false := by
  refine ⟨?_, by decide, by decide, by decide⟩
  unfold lowerChar
  rw [if_neg (by decide)]

theorem wsChar_facts (c : Char) (h : isWSC c = true) :
    lowerChar c = c ∧ c ≠ 'a' ∧ c ≠ 'p' := by
  have hn : ((((c.toNat = 32 ∨ c.toNat = 9) ∨ c.toNat = 10) ∨
      c.toNat = 13) ∨ c.toNat = 11) ∨ c.toNat = 12 := by
    simpa [isWSC, Bool.or_eq_true, decide_eq_true_eq] using h
  refine ⟨lowerChar_eq_self c (by omega), ?_, ?_⟩
  · intro he; subst he; exact absurd h (by decide)
  · intro he; subst he; exact absurd h (by decide)

theorem lowerStr_eq_self (l : List Char) (h : ∀ c ∈ l, lowerChar c = c) :
    lowerStr l = l := by
  induction l with
  | nil => rfl
  | cons a as ih =>
    unfold lowerStr at *
    simp only [List.map_cons]
    rw [h a (by simp), ih (fun c hc => h c (by simp [hc]))]

theorem removePat2_id (a b : Char) (l : List Char) (h : ∀ c ∈ l, c ≠ a) :
    removePat2 a b l = l := by
  induction l with
  | nil => rfl
  | cons c cs ih =>
    cases cs with
    | nil => rfl
    | cons d ds =>
      rw [removePat2, if_neg (fun hcd => h c (by simp) hcd.1),
          ih (fun x hx => h x (List.mem_cons_of_mem c hx))]

theorem removePat2_append (a b : Char) (l₁ l₂ : List Char)
    (h : ∀ c ∈ l₁, c ≠ a) :
    removePat2 a b (l₁ ++ a :: b :: l₂) = l₁ ++ removePat2 a b l₂ := by
  induction l₁ with
  | nil =>
    simp only [List.nil_append]
    rw [removePat2, if_pos ⟨rfl, rfl⟩]
  | cons c cs ih =>
    cases cs with
    | nil =>
      simp only [List.cons_append, List.nil_append]
      rw [removePat2, if_neg (fun hcd => h c (by simp) hcd.1),
          removePat2, if_pos ⟨rfl, rfl⟩]
    | cons c2 cs2 =>
      simp only [List.cons_append] at ih ⊢
      rw [removePat2, if_neg (fun hcd => h c (by simp) hcd.1),
          ih (fun x hx => h x (List.mem_cons_of_mem c hx))]

theorem dropWS_all_ws (l : List Char) (h : ∀ c ∈ l, isWSC c = true) :
    dropWS l = [] := by
  induction l with
  | nil => rfl
  | cons a as ih =>
    rw [dropWS, List.dropWhile_cons, if_pos (h a (by simp))]
    exact ih (fun c hc => h c (by simp [hc]))

theorem dropWS_all_not (l : List Char) (h : ∀ c ∈ l, isWSC c = false) :
    dropWS l = l := by
  cases l with
  | nil => rfl
  | cons a as =>
    rw [dropWS, List.dropWhile_cons, if_neg (by simp [h a (by simp)])]

theorem dropWS_append_ws (w l : List Char) (h : ∀ c ∈ w, isWSC c = true) :
    dropWS (w ++ l) = dropWS l := by
  induction w with
  | nil => rfl
  | cons a as ih =>
    rw [List.cons_append, dropWS, List.dropWhile_cons, if_pos (h a (by simp))]
    exact ih (fun c hc => h c (by simp [hc]))

theorem stripStr_sandwich (s w : List Char)
    (hs : ∀ c ∈ s, isWSC c = false) (hw : ∀ c ∈ w, isWSC c = true) :
    stripStr (s ++ w) = s := by
  unfold stripStr
  cases s with
  | nil =>
    simp only [List.nil_append]
    rw [dropWS_all_ws w hw]
    rfl
  | cons a as =>
    have h1 : dropWS ((a :: as) ++ w) = (a :: as) ++ w := by
      rw [List.cons_append, dropWS, List.dropWhile_cons,
          if_neg (by simp [hs a (by simp)])]
    rw [h1, List.reverse_append,
        dropWS_append_ws _ _ (fun c hc => hw c (List.mem_reverse.mp hc)),
        dropWS_all_not _ (fun c hc => hs c (List.mem_reverse.mp hc)),
        List.reverse_reverse]

theorem stripStr_all_not (s : List Char) (hs : ∀ c ∈ s, isWSC c = false) :
    stripStr s = s := by
  have h := stripStr_sandwich s [] hs (by simp)
  simpa using h

/-! ## Claim C4 -/

/-- C4: appending an "am"/"pm" suffix in any letter case, with any
surrounding whitespace, to a digits-and-colons time string yields the
same parsed instant as the suffix-free string with the same
`is_afternoon` flag — the cleaner deletes the suffix and the
whitespace before numeric parsing. -/
theorem ampm_suffix_invariance (s w1 w2 sfx d : List Char) (pm : Bool)
    (hs : ∀ c ∈ s, isDigitC c = true ∨ c = ':')
    (hw1 : ∀ c ∈ w1, isWSC c = true)
    (hw2 : ∀ c ∈ w2, isWSC c = true)
    (hsfx : lowerStr sfx = ['a', 'm'] ∨ lowerStr sfx = ['p', 'm']) :
    parse_time (s ++ w1 ++ sfx ++ w2) d pm = parse_time s d pm := by
  have hsF : ∀ c ∈ s, lowerChar c = c ∧ c ≠ 'a' ∧ c ≠ 'p' ∧
      isWSC c = false := by
    intro c hc
    rcases hs c hc with hd | rfl
    · exact digit_facts c hd
    · exact colon_facts
  have hw1F : ∀ c ∈ w1, lowerChar c = c ∧ c ≠ 'a' ∧ c ≠ 'p' :=
    fun c hc => wsChar_facts c (hw1 c hc)
  have hw2F : ∀ c ∈ w2, lowerChar c = c ∧ c ≠ 'a' ∧ c ≠ 'p' :=
    fun c hc => wsChar_facts c (hw2 c hc)
  have hNoA12 : ∀ c ∈ s ++ w1, c ≠ 'a' := by
    intro c hc
    rcases List.mem_append.mp hc with h | h
    exacts [(hsF c h).2.1, (hw1F c h).2.1]
  have hNoP12 : ∀ c ∈ s ++ w1, c ≠ 'p' := by
    intro c hc
    rcases List.mem_append.mp hc with h | h
    exacts [(hsF c h).2.2.1, (hw1F c h).2.2]
  have hNoP123 : ∀ c ∈ (s ++ w1) ++ w2, c ≠ 'p' := by
    intro c hc
    rcases List.mem_append.mp hc with h | h
    exacts [hNoP12 c h, (hw2F c h).2.2]
  have hNoApm : ∀ c ∈ (s ++ w1) ++ ('p' :: 'm' :: w2), c ≠ 'a' := by
    intro c hc
    rcases List.mem_append.mp hc with h | h
    · exact hNoA12 c h
    · rcases List.mem_cons.mp h with rfl | h
      · decide
      · rcases List.mem_cons.mp h with rfl | h
        · decide
        · exact (hw2F c h).2.1
  have hstrip : stripStr ((s ++ w1) ++ w2) = s := by
    rw [List.append_assoc]
    refine stripStr_sandwich s (w1 ++ w2) (fun c hc => (hsF c hc).2.2.2) ?_
    intro c hc
    rcases List.mem_append.mp hc with h | h
    exacts [hw1 c h, hw2 c h]
  have hcleanS : cleanTime s = s := by
    unfold cleanTime
    rw [lowerStr_eq_self s (fun c hc => (hsF c hc).1),
        removePat2_id _ _ _ (fun c hc => (hsF c hc).2.1),
        removePat2_id _ _ _ (fun c hc => (hsF c hc).2.2.1),
        stripStr_all_not s (fun c hc => (hsF c hc).2.2.2)]
  have hlower : lowerStr (s ++ w1 ++ sfx ++ w2) =
      ((s ++ w1) ++ lowerStr sfx) ++ w2 := by
    unfold lowerStr
    simp only [List.map_append]
    rw [show List.map lowerChar s = s from
          lowerStr_eq_self s (fun c hc => (hsF c hc).1),
        show List.map lowerChar w1 = w1 from
          lowerStr_eq_self w1 (fun c hc => (hw1F c hc).1),
        show List.map lowerChar w2 = w2 from
          lowerStr_eq_self w2 (fun c hc => (hw2F c hc).1)]
  have hclean : cleanTime (s ++ w1 ++ sfx ++ w2) = s := by
    unfold cleanTime
    rw [hlower]
    rcases hsfx with ham | hpm
    · rw [ham,
          show ((s ++ w1) ++ ['a', 'm']) ++ w2 =
            (s ++ w1) ++ ('a' :: 'm' :: w2) from by simp,
          removePat2_append 'a' 'm' (s ++ w1) w2 hNoA12,
          removePat2_id 'a' 'm' w2 (fun c hc => (hw2F c hc).2.1),
          removePat2_id 'p' 'm' _ hNoP123]
      exact hstrip
    · rw [hpm,
          show ((s ++ w1) ++ ['p', 'm']) ++ w2 =
            (s ++ w1) ++ ('p' :: 'm' :: w2) from by simp,
          removePat2_id 'a' 'm' _ hNoApm,
          removePat2_append 'p' 'm' (s ++ w1) w2 hNoP12,
          removePat2_id 'p' 'm' w2 (fun c hc => (hw2F c hc).2.2)]
      exact hstrip
  unfold parse_time
  rw [hclean, hcleanS]

theorem ampm_suffix_invariance_witness :
    (∀ c ∈ "10:15:30".toList, isDigitC c = true ∨ c = ':') ∧
    (∀ c ∈ [' '], isWSC c = true) ∧
    lowerStr "PM".toList = ['p', 'm'] ∧
    parse_time ("10:15:30".toList ++ [' '] ++ "PM".toList ++ [' '])
        "20240102".toList false =
      parse_time "10:15:30".toList "20240102".toList false ∧
    parse_time "10:15:30 PM ".toList "20240102".toList false =
      some ⟨2024, 1, 2, 10, 15, 30⟩ :=
  ⟨by decide, by decide, by decide,
   ampm_suffix_invariance "10:15:30".toList [' '] [' '] "PM".toList
     "20240102".toList false (by decide) (by decide) (by decide)
     (Or.inr (by decide)), rfl⟩

/-! ## Claim C1 -/

/-- C1 (code bug): a session folder holding a loadable channel file
(`2024-01-02_HR.csv`, with a `LocalTimestamp` column and a value
column) but no file matching `'* Combined Observations.csv'` does not
render any chart: `process_folder` raises an uncaught `IndexError` at
`glob.glob(...)[0]` (line 263) before the graceful missing-schedule
branches (lines 269–271 and 103–105) can run, aborting the session —
and, since the batch loop has no handler, the batch.  The second
conjunct shows the channel data itself would have loaded. -/
theorem missing_schedule_file_aborts_session :
    process_folder c1Folder = Except.error PyErr.indexError ∧
    (load_emotibit_data c1Folder.files SIGNALS_TO_PLOT).1 =
      [("HR".toList, [((100 : Int), (1 : Int)), (200, 2)])] ∧
    (load_emotibit_data c1Folder.files SIGNALS_TO_PLOT).2 =
      some "20240102".toList :=
  ⟨rfl, rfl, rfl⟩

end EmotiBit
